import Mathlib

/-!
Verification development for the App-Reviewer batch candidate-evaluation
pipeline (backend/src/services).  The Python services are shallowly embedded:
pure fragments become Lean functions, collaborator calls (Google Drive
downloads, Whisper transcription, the Azure OpenAI classifier, the Supabase
tables) become explicit environment parameters, and Python exceptions become
an explicit `Except PyExn` result.  Dynamic Python dicts are association
lists over a small value type `Val`.
-/

/- ===== Python value model ===== -/

/-- A JSON-serializable Python value as it flows through the pipeline
    result dicts: strings, numbers (floats modelled as rationals), booleans,
    lists of strings (the processing-error lists), and None. -/
inductive Val where
  | vStr : String → Val
  | vNum : Rat → Val
  | vBool : Bool → Val
  | vList : List String → Val
  | vNone : Val
deriving DecidableEq, Repr

/-- A Python dict with string keys, as an association list in insertion
    order.  All dicts built by the pipeline have pairwise-distinct keys. -/
abbrev Dict := List (String × Val)

/-- `d.get(k)` / `d[k]` lookup: first binding of the key. -/
def dictGet? (d : Dict) (k : String) : Option Val :=
  (d.find? (fun kv => kv.1 == k)).map (fun kv => kv.2)

/-- `d.get(k, default)`. -/
def dictGetD (d : Dict) (k : String) (v : Val) : Val :=
  (dictGet? d k).getD v

/-- `k in d`. -/
def dictHasKey (d : Dict) (k : String) : Bool :=
  (dictGet? d k).isSome

/-- `d[k] = v` assignment: overwrite in place, or append a new binding. -/
def dictSet (d : Dict) (k : String) (v : Val) : Dict :=
  if dictHasKey d k then d.map (fun kv => if kv.1 == k then (k, v) else kv)
  else d ++ [(k, v)]

/-- A raised Python exception, by kind, carrying `str(e)`. -/
inductive PyExn where
  | jsonDecodeError : String → PyExn
  | attributeError : String → PyExn
  | validationError : String → PyExn
  | valueError : String → PyExn
  | other : String → PyExn
deriving DecidableEq, Repr

/-- `str(e)`: the message of the exception. -/
def PyExn.toStr : PyExn → String
  | .jsonDecodeError m => m
  | .attributeError m => m
  | .validationError m => m
  | .valueError m => m
  | .other m => m

/-- Python truthiness of a `Val` (`if value:`). -/
def pyTruthy : Val → Bool
  | .vStr s => !(s == "")
  | .vNum q => !(q == 0)
  | .vBool b => b
  | .vList l => !l.isEmpty
  | .vNone => false

/-- Does `needle` occur as a contiguous segment of the list? -/
def listContainsSeg (needle : List Char) : List Char → Bool
  | [] => needle.isEmpty
  | c :: rest => needle.isPrefixOf (c :: rest) || listContainsSeg needle rest

/-- Substring containment, Python `needle in hay` on strings. -/
def strContains (hay needle : String) : Bool :=
  listContainsSeg needle.toList hay.toList

/-- json.dumps escaping of one character (quote and backslash; control
    characters do not occur in the pipeline payloads). -/
def jsonEscapeChar (c : Char) : String :=
  if c == '\\' then "\\\\" else if c == '\"' then "\\\"" else String.singleton c

/-- json.dumps escaping of a string body. -/
def jsonEscape (s : String) : String :=
  String.join (s.toList.map jsonEscapeChar)

/-- json.dumps of a single string. -/
def jsonQuote (s : String) : String :=
  "\"" ++ jsonEscape s ++ "\""

/-- `json.dumps` of a list of strings (default separators). -/
def jsonDumpsList (l : List String) : String :=
  "[" ++ String.intercalate ", " (l.map jsonQuote) ++ "]"

/-- `json.dumps` of a pipeline value (only the string and list cases are
    ever reached by the pipeline). -/
def jsonDumpsVal : Val → String
  | .vStr s => jsonQuote s
  | .vList l => jsonDumpsList l
  | .vBool b => if b then "true" else "false"
  | .vNone => "null"
  | .vNum q => toString q.num ++ (if q.den == 1 then "" else "/" ++ toString q.den)

/-- Digits to a natural number. -/
def digitsToNat (l : List Char) : Nat :=
  l.foldl (fun a c => a * 10 + (c.toNat - 48)) 0

/-- `float(s)` on a string: optional sign, decimal digits, optional
    fractional part (scientific notation and specials are not used by the
    pipeline).  `none` models the ValueError raise. -/
def pyFloatOfString (s : String) : Option Rat :=
  let t := s.trim.toList
  let sign : Rat := if t.head? == some '-' then -1 else 1
  let t2 := if t.head? == some '-' || t.head? == some '+' then t.tail else t
  let ip := t2.takeWhile Char.isDigit
  let rest := t2.drop ip.length
  match rest with
  | [] => if ip.isEmpty then none else some (sign * (digitsToNat ip : Rat))
  | '.' :: fr =>
    let fd := fr.takeWhile Char.isDigit
    if !(fr.drop fd.length).isEmpty then none
    else if ip.isEmpty && fd.isEmpty then none
    else some (sign * ((digitsToNat ip : Rat) + (digitsToNat fd : Rat) / ((10 : Rat) ^ fd.length)))
  | _ => none

/-- Python `float(value)` on a pipeline value. -/
def pyFloat : Val → Except PyExn Rat
  | .vNum q => .ok q
  | .vBool b => .ok (if b then 1 else 0)
  | .vStr s =>
    match pyFloatOfString s with
    | some q => .ok q
    | none => .error (.valueError ("could not convert string to float: " ++ s))
  | .vList _ => .error (.other "float() argument must be a string or a real number, not list")
  | .vNone => .error (.other "float() argument must be a string or a real number, not NoneType")

/- ===== Persistence store (database_service.py) ===== -/

/-- The email key used by `save_candidate_evaluation`:
    `candidate_data.get("email", "")` (pipeline email values are strings). -/
def emailKeyOf (d : Dict) : String :=
  match dictGet? d "email" with
  | some (.vStr s) => s
  | _ => ""

/-- The three timestamp keys popped before cleaning. -/
def timestampKeys : List String := ["created_at", "evaluation_timestamp", "updated_at"]

/-- The per-value cleaning step of `save_candidate_evaluation`:
    None becomes the empty string, a list becomes its json.dumps (or the
    empty string when the list is empty), everything else passes through. -/
def cleanVal : Val → Val
  | .vNone => .vStr ""
  | .vList l => if l.isEmpty then .vStr "" else .vStr (jsonDumpsList l)
  | v => v

/-- `cleaned_data` of `save_candidate_evaluation`: pop the auto-generated
    timestamp keys, then clean every remaining value. -/
def cleanData (d : Dict) : Dict :=
  (d.filter (fun kv => !(timestampKeys.contains kv.1))).map (fun kv => (kv.1, cleanVal kv.2))

/-- One row of the `candidate_evaluations` table: its primary key `id`,
    its `session_id` column, its `email` column, and the remaining columns
    written by the pipeline. -/
structure EvalRecord where
  rid : String
  session_id : String
  email : String
  payload : Dict
deriving DecidableEq, Repr

/-- The `candidate_evaluations` table. -/
abbrev Store := List EvalRecord

/-- `DatabaseService.save_candidate_evaluation`: look up any existing row
    with the candidate email (from any session); update it in place with the
    cleaned data and the current session id when found, else insert a fresh
    row under the supplied uuid `newId`.  Returns the new store and the id
    the method returns. -/
def save_candidate_evaluation (store : Store) (session_id newId : String)
    (candidate_data : Dict) : Store × String :=
  let e := emailKeyOf candidate_data
  let cleaned := cleanData candidate_data
  match store.find? (fun r => r.email == e) with
  | some existing =>
    (store.map (fun r =>
        if r.rid == existing.rid then
          { r with session_id := session_id, payload := cleaned }
        else r),
     existing.rid)
  | none =>
    (store ++ [{ rid := newId, session_id := session_id, email := e, payload := cleaned }], newId)

/-- One call to `save_candidate_evaluation`: the session id, the fresh uuid
    used in the insert branch, and the candidate data. -/
structure SaveOp where
  sid : String
  nid : String
  data : Dict
deriving DecidableEq, Repr

/-- A sequence of persist calls, applied in order. -/
def runSaves (store : Store) (ops : List SaveOp) : Store :=
  ops.foldl (fun s op => (save_candidate_evaluation s op.sid op.nid op.data).1) store

/-- The last save in the sequence whose candidate data carries this email. -/
def lastSaveFor (e : String) : List SaveOp → Option SaveOp
  | [] => none
  | op :: rest =>
    match lastSaveFor e rest with
    | some op2 => some op2
    | none => if emailKeyOf op.data == e then some op else none

/-- All rows of the store holding this email. -/
def recordsFor (s : Store) (e : String) : List EvalRecord :=
  s.filter (fun r => r.email == e)

/-- Store sanity: primary keys pairwise distinct and at most one row per
    email (both hold for every store the pipeline builds from empty). -/
def GoodStore (s : Store) : Prop :=
  (s.map EvalRecord.rid).Nodup ∧ (s.map EvalRecord.email).Nodup

/- ===== Artifact references (drive_service.py) ===== -/

/-- One cell of the candidate table: a missing value (NaN) or a string.
    Non-string cells are read through `str(...)` by the pipeline, so the
    string collapse is faithful for every observation the code makes. -/
inductive Cell where
  | nan : Cell
  | cs : String → Cell
deriving DecidableEq, Repr

/-- A character of the regex class `[a-zA-Z0-9-_]`. -/
def isIdChar (c : Char) : Bool :=
  c.isAlpha || c.isDigit || c == '-' || c == '_'

/-- `re.search` for a pattern of the shape `lit([a-zA-Z0-9-_]+)`: scan left
    to right for the first position where the literal matches and at least
    one identifier character follows; the group is the maximal identifier
    run there (greedy plus). -/
def matchIdAfter (lit : List Char) : List Char → Option (List Char)
  | [] => none
  | c :: rest =>
    if lit.isPrefixOf (c :: rest) then
      let run := ((c :: rest).drop lit.length).takeWhile isIdChar
      if run.isEmpty then matchIdAfter lit rest else some run
    else matchIdAfter lit rest

/-- The ordered literal parts of the three identifier patterns of
    `GoogleDriveService.extract_file_id`. -/
def drivePatterns : List (List Char) :=
  ["/file/d/".toList, "id=".toList, "/d/".toList]

/-- First pattern that matches wins. -/
def firstPatternMatch (s : List Char) : List (List Char) → Option (List Char)
  | [] => none
  | p :: ps =>
    match matchIdAfter p s with
    | some g => some g
    | none => firstPatternMatch s ps

/-- `GoogleDriveService.extract_file_id`: None for an absent or empty
    reference, else the first pattern group, else None. -/
def extract_file_id : Cell → Option String
  | .nan => none
  | .cs u =>
    if u == "" then none
    else (firstPatternMatch u.toList drivePatterns).map (fun l => String.mk l)

/- ===== CV / video processing (_process_cv, _process_video) ===== -/

/-- The fate of the DOCX fallback block of `_process_cv`: either the
    `os.rename` + `extract_text_from_docx` + delete sequence ran and the
    extractor returned this string (the extractor never raises: its own
    failures come back as an `Error extracting DOCX: ...` string), or the
    block raised (a rename/IO failure) with this message. -/
inductive DocxStep where
  | renamed : String → DocxStep
  | renameErr : String → DocxStep
deriving DecidableEq, Repr

/-- Collaborator outcomes for one CV: whether `download_file` returned True,
    what `extract_text_from_pdf` returned for the downloaded bytes (its own
    failures come back as an `Error extracting PDF: ...` string), and what
    the DOCX fallback block would do on those same bytes. -/
structure CVEnv where
  download_ok : Bool
  pdf_result : String
  docx_step : DocxStep
deriving DecidableEq, Repr

/-- The marker `_process_cv` looks for to decide the PDF attempt failed. -/
def pdfErrorMarker : String := "Error extracting PDF"

/-- What `_process_cv` did to the shared `ProcessingResult`: the `cv_text`
    it assigned (if any), the error messages it appended, and whether a
    download was attempted. -/
structure CVOutcome where
  cv_text : Option String
  new_errors : List String
  download_attempted : Bool
deriving DecidableEq, Repr

/-- `CandidateProcessor._process_cv` on the `Curriculum vitae ` cell:
    absent/empty reference is a silent no-op; an unparseable reference
    appends `Could not extract CV file ID` without downloading; otherwise
    download, extract as PDF, and on the PDF failure marker reinterpret the
    same bytes as DOCX. -/
def process_cv (env : CVEnv) (cv_url : Cell) : CVOutcome :=
  match cv_url with
  | .nan => ⟨none, [], false⟩
  | .cs u =>
    if u == "" then ⟨none, [], false⟩
    else
      match extract_file_id (.cs u) with
      | none => ⟨none, ["Could not extract CV file ID"], false⟩
      | some _fid =>
        if env.download_ok then
          let firstTry := env.pdf_result
          let final :=
            if strContains firstTry pdfErrorMarker then
              match env.docx_step with
              | .renamed t => t
              | .renameErr m => "Error processing as DOCX: " ++ m
            else firstTry
          ⟨some final, [], true⟩
        else ⟨none, ["Failed to download CV"], true⟩

/-- What `_process_video` did: the transcript it assigned (if any) and the
    errors it appended. -/
structure VideoOutcome where
  transcript : Option String
  new_errors : List String
deriving DecidableEq, Repr

/-- `CandidateProcessor._process_video` on the video cell, given the
    download outcome and what `transcribe_video` returns (transcription
    failures come back as an `Error transcribing video: ...` string). -/
def process_video (download_ok : Bool) (transcript : String) (video_url : Cell) : VideoOutcome :=
  match video_url with
  | .nan => ⟨none, []⟩
  | .cs u =>
    if u == "" then ⟨none, []⟩
    else
      match extract_file_id (.cs u) with
      | none => ⟨none, ["Could not extract video file ID"]⟩
      | some _fid =>
        if download_ok then ⟨some transcript, []⟩
        else ⟨none, ["Failed to download video"]⟩

/- ===== AI evaluation (ai_service.py) ===== -/

/-- The global default criteria string, loaded at import time from the
    `eligibility_criteria.txt` template (the template file is plumbing
    outside the pipeline; its exact text is opaque to every claim). -/
def ELIGIBILITY_CRITERIA : String :=
  "Default eligibility criteria loaded from eligibility_criteria.txt"

/-- The `user_criteria` table plus availability of the Supabase client. -/
structure DBState where
  available : Bool
  user_criteria : List Dict
deriving Repr

/-- Rows of `user_criteria` matching `.eq(user_id).eq(is_active, True)`. -/
def criteriaMatches (db : DBState) (uid : String) : List Dict :=
  db.user_criteria.filter (fun row =>
    dictGet? row "user_id" == some (.vStr uid) && dictGet? row "is_active" == some (.vBool true))

/-- The `created_at` ordering key of a criteria row. -/
def createdAtOf (row : Dict) : Rat :=
  match dictGet? row "created_at" with
  | some (.vNum q) => q
  | _ => 0

/-- `DatabaseService.get_active_criteria`: the newest active criteria row
    for the user, as the raw Supabase row dict, or None. -/
def get_active_criteria (db : DBState) (uid : String) : Option Dict :=
  (criteriaMatches db uid).foldl
    (fun acc row =>
      match acc with
      | none => some row
      | some best => if createdAtOf best < createdAtOf row then some row else some best)
    none

/-- `str(e)` of the AttributeError raised by `criteria.content` when
    `criteria` is the plain dict returned by `get_active_criteria`. -/
def dictNoContentMsg : String :=
  "\x27dict\x27 object has no attribute \x27content\x27"

/-- `AIEvaluationService._get_user_criteria`: with a truthy user id and an
    available db, fetch the active criteria row; a found row is a plain
    dict, so the `criteria.content` attribute access raises AttributeError;
    every other path falls back to the global default. -/
def ai_get_user_criteria (uid : Option String) (db : Option DBState) : Except PyExn String :=
  match uid, db with
  | some u, some dbs =>
    if !(u == "") && dbs.available then
      match get_active_criteria dbs u with
      | some row =>
        if !row.isEmpty then .error (.attributeError dictNoContentMsg)
        else .ok ELIGIBILITY_CRITERIA
      | none => .ok ELIGIBILITY_CRITERIA
    else .ok ELIGIBILITY_CRITERIA
  | _, _ => .ok ELIGIBILITY_CRITERIA

/-- The AI collaborator: `classify` is the synchronous chat-completions
    call on (narrative, criteria) returning the raw response content or
    raising; `parseJson` is `json.loads` on that content (the response
    format is constrained to a JSON object, so a successful parse is an
    object). -/
structure AIEnv where
  classify : String → String → Except PyExn String
  parseJson : String → Option Dict

/-- The synthetic error dict `evaluate_candidate` builds. -/
def aiErrorDict (rationale : String) : Dict :=
  [("outcome", .vStr "Error"), ("score", .vNum 0), ("rationale", .vStr rationale)]

/-- `AIEvaluationService.evaluate_candidate`: resolve criteria, call the
    classifier, parse its JSON; a JSONDecodeError maps to the fixed parse
    failure dict, any other exception maps to `Evaluation error: str(e)`. -/
def evaluate_candidate (env : AIEnv) (candidate_text : String)
    (uid : Option String) (db : Option DBState) : Dict :=
  let attempt : Except PyExn Dict :=
    match ai_get_user_criteria uid db with
    | .error e => .error e
    | .ok criteria =>
      match env.classify candidate_text criteria with
      | .error e => .error e
      | .ok raw =>
        match env.parseJson raw with
        | some d => .ok d
        | none => .error (.jsonDecodeError "Expecting value")
  match attempt with
  | .ok d => d
  | .error (.jsonDecodeError _) => aiErrorDict "Failed to parse AI evaluation"
  | .error e => aiErrorDict ("Evaluation error: " ++ e.toStr)

/- ===== Candidate table and narrative (candidate_processor.py) ===== -/

/-- One row of the uploaded candidate table: column name to cell. -/
abbrev Row := List (String × Cell)

/-- `row.get(col)`: first binding of the column. -/
def rowGet? (r : Row) (c : String) : Option Cell :=
  (r.find? (fun kv => kv.1 == c)).map (fun kv => kv.2)

/-- `row.get(col, default)`. -/
def rowGetD (r : Row) (c : String) (d : Cell) : Cell :=
  (rowGet? r c).getD d

/-- `data[data[Email address] == email]` followed by `.iloc[0]`: the first
    row whose email cell equals the email (a NaN cell never equals it). -/
def lookupCandidate (data : List Row) (email : String) : Option Row :=
  data.find? (fun r => rowGet? r "Email address" == some (.cs email))

/-- `safe_get` of `create_candidate_narrative`: `Not provided` for a
    missing column, a NaN cell, or a blank string. -/
def safe_get (r : Row) (c : String) : String :=
  match rowGet? r c with
  | none => "Not provided"
  | some .nan => "Not provided"
  | some (.cs v) => if v.trim == "" then "Not provided" else v

/-- The MSA-interest column header. -/
def msaCol : String :=
  "Would you be interested in joining the Management Scholars Academy (MSA) if such an option is available? See https://www.lbs.edu.ng/faculty-and-research/management-scholars-academy-2/ for details"

/-- The essay column header. -/
def essayCol : String :=
  "Write an essay demonstrating why you are an ideal candidate for this programmme, highlighting all significant details"

/-- The CV reference column header (with its trailing space). -/
def cvCol : String := "Curriculum vitae "

/-- The video reference column header. -/
def videoCol : String :=
  "Create a video presentation describing yourself and share your experiences"

/-- The narrative template of `create_candidate_narrative` applied to the
    first matching row, before the final `.strip()`. -/
def narrativeBody (c : Row) : String :=
  String.intercalate "\n"
    [ "",
      "        CANDIDATE PROFILE NARRATIVE",
      "        ",
      "        Personal Information:",
      "        " ++ safe_get c "Title" ++ " " ++ safe_get c "Name (surname first)" ++ " is a "
        ++ (safe_get c "Gender").toLower ++ " candidate born on " ++ safe_get c "Date of birth" ++ ". ",
      "        Their marital status is " ++ (safe_get c "Marital status").toLower
        ++ " and they follow the " ++ safe_get c "Religion" ++ " faith.",
      "        ",
      "        Contact Details:",
      "        The candidate can be reached at " ++ safe_get c "Email address"
        ++ " or by phone at " ++ safe_get c "Phone number" ++ ". ",
      "        They currently reside at: " ++ safe_get c "Residential address" ++ ".",
      "        ",
      "        Professional Background:",
      "        Currently, they are employed as " ++ safe_get c "Current employment or occupation (if applicable)"
        ++ " in the " ++ safe_get c "Current employment or occupational category" ++ " sector. ",
      "        Their workplace is located at: " ++ safe_get c "Company address" ++ ".",
      "        ",
      "        Educational Background:",
      "        For their undergraduate studies, they attended " ++ safe_get c "University attended"
        ++ " where they pursued a " ++ safe_get c "Degree type  (undergraduate)"
        ++ " degree in " ++ safe_get c "Programme (undergraduate)" ++ ". ",
      "        They achieved a " ++ safe_get c "Class of degree (undergraduate)"
        ++ " and completed their studies on " ++ safe_get c "Date of completion (undergraduate)" ++ ".",
      "        ",
      "        For postgraduate education, they pursued a " ++ safe_get c "Degree type (postgraduate)"
        ++ " in " ++ safe_get c "Programme (postgraduate)" ++ ", achieving a "
        ++ safe_get c "Class of degree (postgraduate)"
        ++ " and completed/expecting to complete on "
        ++ safe_get c "Date of completion/Expected date of completion (postgraduate)" ++ ".",
      "        ",
      "        Additional Qualifications:",
      "        Their educational qualifications include: " ++ safe_get c "Education qualification(s)" ++ ".",
      "        Professional qualifications: " ++ safe_get c "Professional qualification(s)" ++ ".",
      "        ",
      "        Career Aspirations:",
      "        The candidate\x27s career interests are: " ++ safe_get c "Career interests" ++ ".",
      "        ",
      "        Programme Interest:",
      "        Regarding the Management Scholars Academy (MSA), their interest level is: "
        ++ safe_get c msaCol ++ ".",
      "        ",
      "        Previous Applications: " ++ safe_get c "Have you applied for this programme before?" ++ ".",
      "        ",
      "        Candidate\x27s Essay:",
      "        " ++ safe_get c essayCol,
      "        ",
      "        Application Date: " ++ safe_get c "Timestamp",
      "        " ]

/-- `CandidateProcessor.create_candidate_narrative`. -/
def create_candidate_narrative (email : String) (data : List Row) : String :=
  match lookupCandidate data email with
  | none => "No candidate found with email: " ++ email
  | some c => (narrativeBody c).trim

/- ===== Per-candidate file processing ===== -/

/-- The `ProcessingResult` pydantic model. -/
structure ProcessingResult where
  email : String
  name : String
  cv_text : String
  video_transcript : String
  errors : List String
deriving DecidableEq, Repr

/-- Pydantic v2 validation of a `str` field: a string cell passes through,
    while a NaN cell is a float and is rejected (lax mode does not coerce
    numbers to strings), raising ValidationError. -/
def pydanticStr : Cell → Except PyExn String
  | .cs s => .ok s
  | .nan => .error (.validationError "Input should be a valid string")

/-- Collaborator outcomes for one candidate file pass: the CV environment,
    and the download/transcription outcomes for the video. -/
structure FileEnv where
  cv : CVEnv
  video_download_ok : Bool
  video_transcript : String
deriving Repr

/-- `CandidateProcessor.process_candidate_files`: missing row yields the
    `Unknown` error result; otherwise construct the pydantic result (which
    validates the name cell) and run the CV and video subtasks (their
    internal failures become error-list entries, gathered with
    `return_exceptions=True`).  The CV errors precede the video errors,
    matching task creation order. -/
def process_candidate_files (fenv : FileEnv) (email : String) (data : List Row) :
    Except PyExn ProcessingResult :=
  match lookupCandidate data email with
  | none =>
    .ok { email := email, name := "Unknown", cv_text := "", video_transcript := "",
          errors := ["No candidate found with email: " ++ email] }
  | some c =>
    match pydanticStr (rowGetD c "Name (surname first)" (.cs "Unknown")) with
    | .error e => .error e
    | .ok name =>
      let cvo := process_cv fenv.cv (rowGetD c cvCol (.cs ""))
      let vo := process_video fenv.video_download_ok fenv.video_transcript (rowGetD c videoCol (.cs ""))
      .ok { email := email, name := name,
            cv_text := cvo.cv_text.getD "", video_transcript := vo.transcript.getD "",
            errors := cvo.new_errors ++ vo.new_errors }

/- ===== Comprehensive evaluation ===== -/

/-- `safe_convert` of `create_comprehensive_evaluation`: NaN becomes the
    empty string, everything else its string form. -/
def safe_convert : Cell → String
  | .nan => ""
  | .cs v => v

/-- `safe_convert(candidate.get(col, ''))`. -/
def candGet (c : Row) (col : String) : String :=
  safe_convert (rowGetD c col (.cs ""))

/-- The 2000-character truncation used for CV text and transcript in the
    enhanced narrative. -/
def truncate2000 (s : String) : String :=
  s.take 2000 ++ (if 2000 < s.length then "..." else "")

/-- The enhanced narrative assembled by `create_comprehensive_evaluation`
    (this one is not stripped). -/
def enhancedNarrative (basic : String) (fr : ProcessingResult) : String :=
  String.intercalate "\n"
    [ "",
      "        " ++ basic,
      "        ",
      "        EXTRACTED CV CONTENT:",
      "        " ++ truncate2000 fr.cv_text,
      "        ",
      "        VIDEO PRESENTATION TRANSCRIPT:",
      "        " ++ truncate2000 fr.video_transcript,
      "        ",
      "        PROCESSING NOTES:",
      "        Errors encountered: " ++ (if fr.errors.isEmpty then "None" else String.intercalate ", " fr.errors),
      "        " ]

/-- All collaborator outcomes one comprehensive evaluation consumes, plus
    the wall-clock string used for the evaluation timestamp. -/
structure EvalEnv where
  ai : AIEnv
  files : FileEnv
  now : String

/-- The `comprehensive_result` dict literal, in source order. -/
def comprehensiveDict (nowStr : String) (c : Row) (fr : ProcessingResult) (er : Dict) : Dict :=
  [ ("outcome", dictGetD er "outcome" (.vStr "Error")),
    ("score", dictGetD er "score" (.vNum 0)),
    ("rationale", dictGetD er "rationale" (.vStr "No rationale provided")),
    ("timestamp", .vStr (candGet c "Timestamp")),
    ("email", .vStr (candGet c "Email address")),
    ("title", .vStr (candGet c "Title")),
    ("name", .vStr (candGet c "Name (surname first)")),
    ("gender", .vStr (candGet c "Gender")),
    ("date_of_birth", .vStr (candGet c "Date of birth")),
    ("marital_status", .vStr (candGet c "Marital status")),
    ("religion", .vStr (candGet c "Religion")),
    ("phone_number", .vStr (candGet c "Phone number")),
    ("residential_address", .vStr (candGet c "Residential address")),
    ("current_employment", .vStr (candGet c "Current employment or occupation (if applicable)")),
    ("employment_category", .vStr (candGet c "Current employment or occupational category")),
    ("company_address", .vStr (candGet c "Company address")),
    ("university_attended", .vStr (candGet c "University attended")),
    ("undergraduate_degree_type", .vStr (candGet c "Degree type  (undergraduate)")),
    ("undergraduate_programme", .vStr (candGet c "Programme (undergraduate)")),
    ("undergraduate_class", .vStr (candGet c "Class of degree (undergraduate)")),
    ("undergraduate_completion_date", .vStr (candGet c "Date of completion (undergraduate)")),
    ("postgraduate_degree_type", .vStr (candGet c "Degree type (postgraduate)")),
    ("postgraduate_programme", .vStr (candGet c "Programme (postgraduate)")),
    ("postgraduate_class", .vStr (candGet c "Class of degree (postgraduate)")),
    ("postgraduate_completion_date", .vStr (candGet c "Date of completion/Expected date of completion (postgraduate)")),
    ("education_qualifications", .vStr (candGet c "Education qualification(s)")),
    ("professional_qualifications", .vStr (candGet c "Professional qualification(s)")),
    ("career_interests", .vStr (candGet c "Career interests")),
    ("msa_interest", .vStr (candGet c msaCol)),
    ("previous_applications", .vStr (candGet c "Have you applied for this programme before?")),
    ("candidate_essay", .vStr (candGet c essayCol)),
    ("cv_url", .vStr (candGet c cvCol)),
    ("video_url", .vStr (candGet c videoCol)),
    ("cv_text", .vStr fr.cv_text),
    ("video_transcript", .vStr fr.video_transcript),
    ("processing_errors", .vList fr.errors),
    ("evaluation_timestamp", .vStr nowStr),
    ("files_processed_successfully", .vBool fr.errors.isEmpty) ]

/-- `CandidateProcessor.create_comprehensive_evaluation`: a missing row
    yields the two-key error dict; otherwise build the narrative, process
    the files (the pydantic construction may raise through here), run the
    AI evaluation, and merge everything. -/
def create_comprehensive_evaluation (env : EvalEnv) (email : String) (data : List Row)
    (uid : Option String) (db : Option DBState) : Except PyExn Dict :=
  match lookupCandidate data email with
  | none =>
    .ok [("error", .vStr ("No candidate found with email: " ++ email)), ("email", .vStr email)]
  | some c =>
    let basic := create_candidate_narrative email data
    match process_candidate_files env.files email data with
    | .error e => .error e
    | .ok fr =>
      let er := evaluate_candidate env.ai (enhancedNarrative basic fr) uid db
      .ok (comprehensiveDict env.now c fr er)

/- ===== Batch orchestration (process_candidates_in_batches) ===== -/

/-- The error dict built inside `process_with_semaphore` when a candidate
    task raises. -/
def errorResultDict (email : String) (e : PyExn) : Dict :=
  [ ("error", .vStr ("Processing failed for " ++ email ++ ": " ++ e.toStr)),
    ("email", .vStr email),
    ("outcome", .vStr "Error"),
    ("score", .vNum 0),
    ("rationale", .vStr ("Processing failed: " ++ e.toStr)) ]

/-- `CandidateProcessor._convert_to_db_format`: map the result dict onto
    the database column names, coercing the score with `float(...)` (the
    one step that can raise) and serializing the processing errors. -/
def convert_to_db_format (nowStr : String) (result : Dict) : Except PyExn Dict :=
  match pyFloat (dictGetD result "score" (.vNum 0)) with
  | .error e => .error e
  | .ok score =>
  .ok
    [ ("outcome", dictGetD result "outcome" (.vStr "Error")),
      ("score", .vNum score),
      ("rationale", dictGetD result "rationale" (.vStr "No rationale provided")),
      ("timestamp", dictGetD result "timestamp" (.vStr "")),
      ("email", dictGetD result "email" (.vStr "")),
      ("name", dictGetD result "name" (.vStr "")),
      ("gender", dictGetD result "gender" (.vStr "")),
      ("date_of_birth", dictGetD result "date_of_birth" (.vStr "")),
      ("marital_status", dictGetD result "marital_status" (.vStr "")),
      ("religion", dictGetD result "religion" (.vStr "")),
      ("phone_number", dictGetD result "phone_number" (.vStr "")),
      ("residential_address", dictGetD result "residential_address" (.vStr "")),
      ("current_employment", dictGetD result "current_employment" (.vStr "")),
      ("employment_category", dictGetD result "employment_category" (.vStr "")),
      ("company_address", dictGetD result "company_address" (.vStr "")),
      ("university_attended", dictGetD result "university_attended" (.vStr "")),
      ("undergraduate_degree_type", dictGetD result "undergraduate_degree_type" (.vStr "")),
      ("undergraduate_programme", dictGetD result "undergraduate_programme" (.vStr "")),
      ("undergraduate_class", dictGetD result "undergraduate_class" (.vStr "")),
      ("undergraduate_completion_date", dictGetD result "undergraduate_completion_date" (.vStr "")),
      ("postgraduate_degree_type", dictGetD result "postgraduate_degree_type" (.vStr "")),
      ("postgraduate_programme", dictGetD result "postgraduate_programme" (.vStr "")),
      ("postgraduate_class", dictGetD result "postgraduate_class" (.vStr "")),
      ("postgraduate_completion_date", dictGetD result "postgraduate_completion_date" (.vStr "")),
      ("education_qualifications", dictGetD result "education_qualifications" (.vStr "")),
      ("professional_qualifications", dictGetD result "professional_qualifications" (.vStr "")),
      ("career_interests", dictGetD result "career_interests" (.vStr "")),
      ("msa_interests", dictGetD result "msa_interest" (.vStr "")),
      ("previous_applications", dictGetD result "previous_applications" (.vStr "")),
      ("candidate_essay", dictGetD result "candidate_essay" (.vStr "")),
      ("cv_url", dictGetD result "cv_url" (.vStr "")),
      ("video_url", dictGetD result "video_url" (.vStr "")),
      ("cv_text", dictGetD result "cv_text" (.vStr "")),
      ("video_transcript", dictGetD result "video_transcript" (.vStr "")),
      ("processing_errors", .vStr (jsonDumpsVal (dictGetD result "processing_errors" (.vList [])))),
      ("evaluation_timestamp", .vStr nowStr),
      ("files_processed_successfully", .vBool (pyTruthy (dictGetD result "files_processed_successfully" (.vBool false)))) ]

/-- The try-block body of `process_with_semaphore`: the candidate
    evaluation followed by the db-format conversion, either of which can
    raise into the handler. -/
def tryEvalAndConvert (evalRes : Except PyExn Dict) (nowStr : String) :
    Except PyExn (Dict × Dict) :=
  match evalRes with
  | .error e => .error e
  | .ok r =>
    match convert_to_db_format nowStr r with
    | .error e => .error e
    | .ok d => .ok (r, d)

/-- The per-candidate task body of `process_candidates_in_batches`
    (`process_with_semaphore`): on success convert and persist the result;
    on any exception from the evaluation (or the conversion) build the
    error dict, persist it, and return it.  An exception escaping even the
    handler (impossible in practice) would surface through
    `gather(return_exceptions=True)` as an `Exception` result. -/
def process_with_semaphore (evalRes : Except PyExn Dict) (email sid nid nowStr : String)
    (store : Store) : Store × Except PyExn Dict :=
  match tryEvalAndConvert evalRes nowStr with
  | .ok (r, d) => ((save_candidate_evaluation store sid nid d).1, .ok r)
  | .error e =>
    let er := errorResultDict email e
    match convert_to_db_format nowStr er with
    | .ok d => ((save_candidate_evaluation store sid nid d).1, .ok er)
    | .error e2 => (store, .error e2)

/-- The result component of a candidate task, independent of the store. -/
def taskResult (evalRes : Except PyExn Dict) (email nowStr : String) : Except PyExn Dict :=
  match tryEvalAndConvert evalRes nowStr with
  | .ok (r, _) => .ok r
  | .error e =>
    match convert_to_db_format nowStr (errorResultDict email e) with
    | .ok _ => .ok (errorResultDict email e)
    | .error e2 => .error e2

/-- The running session counters of the batch loop. -/
structure Counters where
  processed : Nat
  accepted : Nat
  rejected : Nat
  errors : Nat
deriving DecidableEq, Repr

/-- The per-result counter update of the batch loop: exceptions and
    error-keyed or Error-outcome dicts count as errors, then Accepted,
    then Rejected; every result bumps the processed count. -/
def tallyOne (c : Counters) (r : Except PyExn Dict) : Counters :=
  match r with
  | .error _ => { c with errors := c.errors + 1, processed := c.processed + 1 }
  | .ok d =>
    let c2 :=
      if dictHasKey d "error" || dictGetD d "outcome" .vNone == .vStr "Error" then
        { c with errors := c.errors + 1 }
      else if dictGetD d "outcome" .vNone == .vStr "Accepted" then
        { c with accepted := c.accepted + 1 }
      else if dictGetD d "outcome" .vNone == .vStr "Rejected" then
        { c with rejected := c.rejected + 1 }
      else c
    { c2 with processed := c2.processed + 1 }

/-- Counter update over one batch of results. -/
def tally (c : Counters) (rs : List (Except PyExn Dict)) : Counters :=
  rs.foldl tallyOne c

/-- One batch: run every candidate task in order, threading the store and
    consuming one fresh uuid per candidate.  (The real tasks interleave
    under the semaphore; the claims proved here are insensitive to the
    completion order, so the sequential threading is a sound abstraction.) -/
def runBatch (env : String → Except PyExn Dict) (sid nowStr : String) :
    List String → List String → Store → Store × List (Except PyExn Dict)
  | _nids, [], store => (store, [])
  | nids, email :: rest, store =>
    let p := process_with_semaphore (env email) email sid (nids.headD "") nowStr store
    let q := runBatch env sid nowStr nids.tail rest p.1
    (q.1, p.2 :: q.2)

/-- `emails[batch_idx : batch_idx + batch_size]` chunking, driven by a fuel
    argument so the recursion is structural (fuel at least the list length
    makes it total for a positive batch size). -/
def chunksGo (bs : Nat) : Nat → List α → List (List α)
  | 0, _ => []
  | _ + 1, [] => []
  | fuel + 1, x :: xs => ((x :: xs).take bs) :: chunksGo bs fuel ((x :: xs).drop bs)

/-- The batches of the candidate list, in order. -/
def chunksOf (bs : Nat) (l : List α) : List (List α) :=
  chunksGo bs l.length l

/-- `data[Email address].dropna().tolist()`: the present entries of the
    email column, in order. -/
def emailsOf (col : List (Option Cell)) : List String :=
  col.filterMap (fun c =>
    match c with
    | some (.cs s) => some s
    | _ => none)

/-- The batch loop over the chunk list: run each batch, update the
    counters after the batch completes, accumulate the results. -/
def runChunks (env : String → Except PyExn Dict) (sid nowStr : String) :
    List (List String) → List (List String) → Store → Counters →
      Store × Counters × List (Except PyExn Dict)
  | _nidss, [], store, cs => (store, cs, [])
  | nidss, batch :: more, store, cs =>
    let p := runBatch env sid nowStr (nidss.headD []) batch store
    let cs2 := tally cs p.2
    let q := runChunks env sid nowStr nidss.tail more p.1 cs2
    (q.1, q.2.1, p.2 ++ q.2.2)

/-- `CandidateProcessor.process_candidates_in_batches` (the store- and
    counter-relevant core: session progress writes, the progress callback,
    the yielded batch summaries and the inter-batch sleep carry no further
    state).  `env` gives each candidate evaluation outcome, `nidss` the
    fresh uuids per batch. -/
def process_candidates_in_batches (env : String → Except PyExn Dict) (sid nowStr : String)
    (bs : Nat) (col : List (Option Cell)) (nidss : List (List String)) (store : Store) :
    Store × Counters × List (Except PyExn Dict) :=
  runChunks env sid nowStr nidss (chunksOf bs (emailsOf col)) store ⟨0, 0, 0, 0⟩

/-- The count the claim wording uses: the number of non-empty-email
    entries of the email column.  (Stated from the claim, for comparison
    with what the code counts.) -/
def specNonEmptyEmailCount (col : List (Option Cell)) : Nat :=
  ((emailsOf col).filter (fun s => !(s == ""))).length

/- ===== Concurrency model (asyncio.Semaphore(3)) ===== -/

/-- The semaphore size hard-coded at both `asyncio.Semaphore(3)` sites. -/
def semaphoreSize : Nat := 3

/-- The scheduling state of one candidate task: not yet started, holding a
    semaphore permit while its evaluation runs, or finished (successfully
    or by an exception). -/
inductive TaskSt where
  | pending : TaskSt
  | running : TaskSt
  | done : Bool → TaskSt
deriving DecidableEq, Repr

/-- A scheduler state: free semaphore permits plus all task states. -/
structure SchedState where
  sem : Nat
  tasks : List TaskSt
deriving DecidableEq, Repr

/-- The cooperative-scheduler transitions the semaphore discipline allows:
    a pending task may start only by acquiring a free permit, and a running
    task releases its permit exactly when it finishes, whether it succeeds
    or raises (`async with` releases on both paths). -/
inductive SchedStep : SchedState → SchedState → Prop where
  | acquire (sem : Nat) (l1 l2 : List TaskSt) (hs : 0 < sem) :
      SchedStep ⟨sem, l1 ++ .pending :: l2⟩ ⟨sem - 1, l1 ++ .running :: l2⟩
  | finish (sem : Nat) (ok : Bool) (l1 l2 : List TaskSt) :
      SchedStep ⟨sem, l1 ++ .running :: l2⟩ ⟨sem + 1, l1 ++ .done ok :: l2⟩

/-- The initial state of a batch of `n` candidate tasks. -/
def initSched (n : Nat) : SchedState :=
  ⟨semaphoreSize, List.replicate n .pending⟩

/-- Is this task holding a permit with its evaluation in flight? -/
def isRunningTask : TaskSt → Bool
  | .running => true
  | _ => false

/-- The number of candidate evaluations in flight. -/
def runningCount (s : SchedState) : Nat :=
  s.tasks.countP isRunningTask

/-- Reachability under the scheduler transitions. -/
def SchedReachable (n : Nat) (s : SchedState) : Prop :=
  Relation.ReflTransGen SchedStep (initSched n) s

/- ===== Concrete fixtures used by witnesses and counterexamples ===== -/

/-- A classifier environment whose response parses to the empty object. -/
def trivialAIEnv : AIEnv := ⟨fun _ _ => .ok "", fun _ => some []⟩

/-- A classifier environment whose response is not valid JSON. -/
def parseFailAIEnv : AIEnv := ⟨fun _ _ => .ok "I think the candidate is great", fun _ => none⟩

/-- A CV environment where everything succeeds. -/
def trivialCVEnv : CVEnv := ⟨true, "", .renamed ""⟩

/-- A file environment where everything succeeds. -/
def trivialFileEnv : FileEnv := ⟨trivialCVEnv, true, ""⟩

/-- A full evaluation environment where every collaborator succeeds. -/
def trivialEvalEnv : EvalEnv := ⟨trivialAIEnv, trivialFileEnv, "2025-05-01 00:00:00"⟩

/-- A candidate row whose name cell is NaN (a blank CSV cell). -/
def nanNameRow : Row := [("Email address", .cs "a@x.com"), ("Name (surname first)", .nan)]

/-- A candidate row with a string name cell. -/
def namedRow : Row := [("Email address", .cs "a@x.com"), ("Name (surname first)", .cs "Doe, Ann")]

/-- First run: candidate a@x.com rejected in session sess-1. -/
def c1OpA : SaveOp := ⟨"sess-1", "id-1", [("email", .vStr "a@x.com"), ("outcome", .vStr "Rejected")]⟩

/-- First run: candidate b@y.com accepted in session sess-1. -/
def c1OpB : SaveOp := ⟨"sess-1", "id-2", [("email", .vStr "b@y.com"), ("outcome", .vStr "Accepted")]⟩

/-- Second run: candidate a@x.com accepted again in session sess-2. -/
def c1OpA2 : SaveOp := ⟨"sess-2", "id-3", [("email", .vStr "a@x.com"), ("outcome", .vStr "Accepted")]⟩

/-- Two runs with the email a@x.com appearing in both. -/
def reRunOps : List SaveOp := [c1OpA, c1OpB, c1OpA2]

/-- A reference string that matches none of the identifier patterns. -/
def noIdUrl : String := "https://example.com/candidates/profile"

/-- A reference string the first pattern parses. -/
def driveUrl : String := "https://drive.google.com/file/d/abc123XYZ/view"

/-- A CV environment where the PDF attempt and the DOCX fallback both
    fail. -/
def fallbackCVEnv : CVEnv :=
  ⟨true, "Error extracting PDF: bad xref table", .renamed "Error extracting DOCX: not a docx"⟩

/-- An active per-user criteria row, as the Supabase row dict. -/
def activeCriteriaRow : Dict :=
  [ ("id", .vStr "crit-1"), ("user_id", .vStr "user-1"),
    ("content", .vStr "Custom user criteria"), ("is_active", .vBool true),
    ("created_at", .vNum 1) ]

/-- A database state holding one active criteria row for user-1. -/
def criteriaDB : DBState := ⟨true, [activeCriteriaRow]⟩

/-- A successful evaluation result dict. -/
def acceptDict : Dict :=
  [ ("outcome", .vStr "Accepted"), ("score", .vNum 85),
    ("rationale", .vStr "Strong profile"), ("email", .vStr "a@x.com") ]

/-- An evaluation oracle that accepts every candidate. -/
def acceptEnv : String → Except PyExn Dict := fun _ => .ok acceptDict

/-- An evaluation oracle that raises for b@y.com and accepts the rest. -/
def boomEnv : String → Except PyExn Dict :=
  fun e => if e == "b@y.com" then .error (.other "boom") else .ok acceptDict

/-- An email column holding a present-but-empty email entry. -/
def emptyEmailCol : List (Option Cell) := [some (.cs "a@x.com"), some (.cs "")]

/-- Two rows sharing one email, with different titles. -/
def dupRow1 : Row := [("Email address", .cs "dup@x.com"), ("Title", .cs "Mr")]

/-- The later duplicate of `dupRow1`. -/
def dupRow2 : Row := [("Email address", .cs "dup@x.com"), ("Title", .cs "Dr")]

/-- A row with an unrelated email. -/
def otherRow : Row := [("Email address", .cs "z@x.com")]

/- ===== Helper lemmas ===== -/

theorem listContainsSeg_append_self (m : List Char) :
    ∀ a : List Char, listContainsSeg m (a ++ m) = true := by
  intro a
  induction a with
  | nil =>
    cases m with
    | nil => rfl
    | cons c t =>
      have hp : (c :: t).isPrefixOf (c :: t) = true :=
        List.isPrefixOf_iff_prefix.2 (List.prefix_refl _)
      simp [listContainsSeg, hp]
  | cons c rest ih =>
    have hstep : listContainsSeg m ((c :: rest) ++ m) =
        (m.isPrefixOf ((c :: rest) ++ m) || listContainsSeg m (rest ++ m)) := rfl
    rw [hstep, ih, Bool.or_true]

theorem strContains_append_right (a m : String) : strContains (a ++ m) m = true := by
  unfold strContains
  have h : (a ++ m).toList = a.toList ++ m.toList := by
    simp [String.toList, String.data_append]
  rw [h]
  exact listContainsSeg_append_self _ _

theorem find?_middle {α : Type} (p : α → Bool) (r : α) :
    ∀ (pre post : List α), (∀ x ∈ pre, p x = false) → p r = true →
      (pre ++ r :: post).find? p = some r := by
  intro pre post hpre hr
  induction pre with
  | nil => simp [List.find?_cons, hr]
  | cons a rest ih =>
    have ha : p a = false := hpre a (by simp)
    simp only [List.cons_append, List.find?_cons, ha]
    exact ih (fun x hx => hpre x (by simp [hx]))

theorem sched_inv_step {s t : SchedState} (h : SchedStep s t)
    (hinv : runningCount s + s.sem = semaphoreSize) :
    runningCount t + t.sem = semaphoreSize := by
  cases h with
  | acquire sem l1 l2 hs =>
    simp [runningCount, List.countP_append, List.countP_cons, isRunningTask] at hinv ⊢
    omega
  | finish sem ok l1 l2 =>
    simp [runningCount, List.countP_append, List.countP_cons, isRunningTask] at hinv ⊢
    omega

/-- C7: at no instant during a batch run are more than 3 candidate
    evaluations in flight: every state reachable under the semaphore
    discipline (permits acquired before an evaluation starts, released on
    completion whether it succeeds or fails) keeps the in-flight count plus
    the free permits equal to the semaphore size 3, so at most 3
    evaluations are ever simultaneously in flight. -/
theorem semaphore_bound_c7 (n : Nat) (s : SchedState) (h : SchedReachable n s) :
    runningCount s + s.sem = semaphoreSize ∧ runningCount s ≤ 3 := by
  have key : runningCount s + s.sem = semaphoreSize := by
    induction h with
    | refl =>
      simp [runningCount, initSched, List.countP_replicate, isRunningTask, semaphoreSize]
    | tail _hsteps hstep ih => exact sched_inv_step hstep ih
  refine ⟨key, ?_⟩
  have h3 : semaphoreSize = 3 := rfl
  omega

theorem semaphore_bound_c7_witness :
    SchedReachable 2 ⟨2, [.running, .pending]⟩ ∧
    runningCount ⟨2, [.running, .pending]⟩ + (2 : Nat) = semaphoreSize ∧
    runningCount ⟨2, [.running, .pending]⟩ ≤ 3 := by
  have hr : SchedReachable 2 ⟨2, [.running, .pending]⟩ :=
    Relation.ReflTransGen.single (SchedStep.acquire 3 [] [.pending] (by decide))
  exact ⟨hr, semaphore_bound_c7 2 _ hr⟩

/-- C4 (amended): an absent or empty document reference is a no-op success
    (no download, nothing recorded); a non-empty reference from which no
    identifier pattern extracts an identifier attempts no download but does
    append `Could not extract CV file ID` to the candidate error list. -/
theorem artifact_no_identifier_c4 (env : CVEnv) (u : String) :
    process_cv env .nan = ⟨none, [], false⟩
  ∧ process_cv env (.cs "") = ⟨none, [], false⟩
  ∧ (extract_file_id (.cs u) = none → (u == "") = false →
      process_cv env (.cs u) = ⟨none, ["Could not extract CV file ID"], false⟩) := by
  refine ⟨rfl, rfl, fun hx hu => ?_⟩
  simp [process_cv, hu, hx]

theorem artifact_no_identifier_c4_witness :
    extract_file_id (.cs noIdUrl) = none ∧ (noIdUrl == "") = false ∧
    process_cv trivialCVEnv (.cs noIdUrl) =
      ⟨none, ["Could not extract CV file ID"], false⟩ := by
  refine ⟨rfl, rfl, ?_⟩
  exact (artifact_no_identifier_c4 trivialCVEnv noIdUrl).2.2 rfl rfl

/-- C4 counterexample: a non-empty reference matching none of the patterns
    is NOT recorded as mere absence: the message lands in the candidate
    error list, refuting `recorded as absence, not as an error`. -/
theorem artifact_no_identifier_c4_counterexample :
    extract_file_id (.cs noIdUrl) = none ∧
    (process_cv trivialCVEnv (.cs noIdUrl)).download_attempted = false ∧
    (process_cv trivialCVEnv (.cs noIdUrl)).new_errors =
      ["Could not extract CV file ID"] :=
  ⟨rfl, rfl, rfl⟩

/-- C5 (amended): document extraction attempts PDF first; when the PDF
    attempt fails (its result carries the failure marker) the same bytes
    are reinterpreted as DOCX and a successful DOCX extraction becomes the
    cv_text; but when the DOCX fallback also fails, the cv_text is the DOCX
    failure message alone (or the rename failure message) - the PDF failure
    is discarded, not concatenated. -/
theorem cv_fallback_c5 (env : CVEnv) (u fid : String)
    (hx : extract_file_id (.cs u) = some fid) (hdl : env.download_ok = true) :
    (strContains env.pdf_result pdfErrorMarker = false →
       process_cv env (.cs u) = ⟨some env.pdf_result, [], true⟩)
  ∧ (∀ t, strContains env.pdf_result pdfErrorMarker = true → env.docx_step = .renamed t →
       process_cv env (.cs u) = ⟨some t, [], true⟩)
  ∧ (∀ m, strContains env.pdf_result pdfErrorMarker = true → env.docx_step = .renameErr m →
       process_cv env (.cs u) = ⟨some ("Error processing as DOCX: " ++ m), [], true⟩) := by
  have hu : (u == "") = false := by
    cases hb : (u == "") with
    | true =>
      exfalso
      have hemp : u = "" := by simpa using hb
      subst hemp
      simp [extract_file_id] at hx
    | false => rfl
  refine ⟨fun hm => ?_, fun t hm hd => ?_, fun m hm hd => ?_⟩
  · simp [process_cv, hu, hx, hdl, hm]
  · simp [process_cv, hu, hx, hdl, hm, hd]
  · simp [process_cv, hu, hx, hdl, hm, hd]

theorem cv_fallback_c5_witness :
    extract_file_id (.cs driveUrl) = some "abc123XYZ" ∧
    strContains "Error extracting PDF: bad xref" pdfErrorMarker = true ∧
    process_cv ⟨true, "Error extracting PDF: bad xref", .renamed "Parsed DOCX body"⟩
      (.cs driveUrl) = ⟨some "Parsed DOCX body", [], true⟩ := by
  refine ⟨rfl, by decide, ?_⟩
  exact (cv_fallback_c5 ⟨true, "Error extracting PDF: bad xref", .renamed "Parsed DOCX body"⟩
    driveUrl "abc123XYZ" rfl rfl).2.1 "Parsed DOCX body" (by decide) rfl

/-- C5 counterexample: PDF extraction and the DOCX fallback both fail, yet
    the resulting cv_text is only the DOCX failure message and does not
    contain the PDF failure - the two failures are not concatenated. -/
theorem cv_fallback_c5_counterexample :
    (process_cv fallbackCVEnv (.cs driveUrl)).cv_text =
      some "Error extracting DOCX: not a docx" ∧
    strContains "Error extracting DOCX: not a docx" pdfErrorMarker = false :=
  ⟨rfl, by decide⟩

/-- C6: the claim says a present active per-user criteria is used as the
    override and resolving it never makes the evaluation fail; the code
    disagrees: `get_active_criteria` returns the Supabase row as a plain
    dict, `criteria.content` on a dict raises AttributeError, and the
    catch-all in `evaluate_candidate` turns the whole evaluation into an
    Error outcome whenever such a row exists.  The fallback paths (no user
    id, or no active row) do reach the global default. -/
theorem criteria_override_c6 :
    (∀ (env : AIEnv) (text : String),
       evaluate_candidate env text (some "user-1") (some criteriaDB) =
         aiErrorDict ("Evaluation error: " ++ dictNoContentMsg))
  ∧ ai_get_user_criteria (some "user-1") (some criteriaDB) =
      .error (.attributeError dictNoContentMsg)
  ∧ ai_get_user_criteria none (some criteriaDB) = .ok ELIGIBILITY_CRITERIA
  ∧ ai_get_user_criteria (some "user-2") (some criteriaDB) = .ok ELIGIBILITY_CRITERIA
  ∧ ai_get_user_criteria (some "user-1") none = .ok ELIGIBILITY_CRITERIA :=
  ⟨fun _ _ => rfl, rfl, rfl, rfl, rfl⟩

/-- C3: with the criteria resolution succeeding, a classifier response that
    is not valid JSON maps to exactly the synthetic parse-failure Error
    dict, and a transport failure maps to exactly the Error dict whose
    rationale embeds (mentions) the failure message; neither propagates an
    exception (the function returns the dict). -/
theorem ai_error_mapping_c3 (env : AIEnv) (text : String) (uid : Option String)
    (db : Option DBState) (crit : String)
    (hcrit : ai_get_user_criteria uid db = .ok crit) :
    (∀ raw, env.classify text crit = .ok raw → env.parseJson raw = none →
       evaluate_candidate env text uid db =
         [("outcome", .vStr "Error"), ("score", .vNum 0),
          ("rationale", .vStr "Failed to parse AI evaluation")])
  ∧ (∀ m, env.classify text crit = .error (.other m) →
       evaluate_candidate env text uid db =
         [("outcome", .vStr "Error"), ("score", .vNum 0),
          ("rationale", .vStr ("Evaluation error: " ++ m))] ∧
       strContains ("Evaluation error: " ++ m) m = true) := by
  constructor
  · intro raw hc hp
    simp only [evaluate_candidate, hcrit, hc, hp, aiErrorDict]
  · intro m hc
    refine ⟨?_, strContains_append_right "Evaluation error: " m⟩
    simp only [evaluate_candidate, hcrit, hc, PyExn.toStr, aiErrorDict]

theorem ai_error_mapping_c3_witness :
    ai_get_user_criteria none none = .ok ELIGIBILITY_CRITERIA ∧
    parseFailAIEnv.classify "narrative" ELIGIBILITY_CRITERIA =
      .ok "I think the candidate is great" ∧
    parseFailAIEnv.parseJson "I think the candidate is great" = none ∧
    evaluate_candidate parseFailAIEnv "narrative" none none =
      [("outcome", .vStr "Error"), ("score", .vNum 0),
       ("rationale", .vStr "Failed to parse AI evaluation")] := by
  refine ⟨rfl, rfl, rfl, ?_⟩
  exact (ai_error_mapping_c3 parseFailAIEnv "narrative" none none
    ELIGIBILITY_CRITERIA rfl).1 "I think the candidate is great" rfl rfl

/-- C2 counterexample: a real input (an email whose first matching row has
    a NaN name cell, i.e. a blank name in the CSV) makes
    `create_comprehensive_evaluation` raise the pydantic ValidationError
    instead of returning a result dict, refuting `never raises` as stated
    over every input. -/
theorem comprehensive_c2_counterexample :
    create_comprehensive_evaluation trivialEvalEnv "a@x.com" [nanNameRow] none none =
      .error (.validationError "Input should be a valid string") := rfl

/-- C2 (amended): for every input whose matched row carries a string name
    cell - and for every email with no matching row - the component returns
    a structured dict holding at least the email and either a verdict
    (outcome) or an error key; but when the matched row's name cell is NaN,
    the pydantic ValidationError propagates out of the component (it is
    caught only at the batch task boundary). -/
theorem comprehensive_c2 (env : EvalEnv) (email : String) (data : List Row)
    (uid : Option String) (db : Option DBState) :
    (lookupCandidate data email = none →
       create_comprehensive_evaluation env email data uid db =
         .ok [("error", .vStr ("No candidate found with email: " ++ email)),
              ("email", .vStr email)])
  ∧ (∀ c s, lookupCandidate data email = some c →
       rowGetD c "Name (surname first)" (.cs "Unknown") = .cs s →
       ∃ d, create_comprehensive_evaluation env email data uid db = .ok d ∧
         dictHasKey d "email" = true ∧ dictHasKey d "outcome" = true)
  ∧ (∀ c, lookupCandidate data email = some c →
       rowGetD c "Name (surname first)" (.cs "Unknown") = .nan →
       create_comprehensive_evaluation env email data uid db =
         .error (.validationError "Input should be a valid string")) := by
  refine ⟨fun h => ?_, fun c s hc hs => ?_, fun c hc hn => ?_⟩
  · simp [create_comprehensive_evaluation, h]
  · simp only [create_comprehensive_evaluation, hc, process_candidate_files, hs, pydanticStr]
    exact ⟨_, rfl, rfl, rfl⟩
  · simp only [create_comprehensive_evaluation, hc, process_candidate_files, hn, pydanticStr]

theorem comprehensive_c2_witness :
    lookupCandidate [namedRow] "a@x.com" = some namedRow ∧
    rowGetD namedRow "Name (surname first)" (.cs "Unknown") = .cs "Doe, Ann" ∧
    ∃ d, create_comprehensive_evaluation trivialEvalEnv "a@x.com" [namedRow] none none =
      .ok d ∧ dictHasKey d "email" = true ∧ dictHasKey d "outcome" = true := by
  refine ⟨rfl, rfl, ?_⟩
  exact (comprehensive_c2 trivialEvalEnv "a@x.com" [namedRow] none none).2.1
    namedRow "Doe, Ann" rfl rfl

theorem emailsOf_count (e : String) :
    ∀ col : List (Option Cell), (emailsOf col).count e = col.count (some (.cs e)) := by
  intro col
  induction col with
  | nil => rfl
  | cons c rest ih =>
    cases c with
    | none =>
      have h1 : emailsOf (none :: rest) = emailsOf rest := rfl
      rw [h1, List.count_cons, ih]
      simp
    | some cell =>
      cases cell with
      | nan =>
        have h1 : emailsOf (some .nan :: rest) = emailsOf rest := rfl
        rw [h1, List.count_cons, ih]
        simp
      | cs s =>
        have h1 : emailsOf (some (.cs s) :: rest) = s :: emailsOf rest := rfl
        by_cases hs : s = e
        · subst hs
          rw [h1, List.count_cons, List.count_cons, ih]
          simp
        · have hb1 : (s == e) = false := beq_eq_false_iff_ne.mpr hs
          have hb2 : (some (Cell.cs s) == some (Cell.cs e)) = false :=
            beq_eq_false_iff_ne.mpr (by simpa using hs)
          rw [h1, List.count_cons, List.count_cons, ih, hb1, hb2]

/-- C10: every by-email lookup (narrative building, file processing,
    comprehensive evaluation) uses only the first matching row: with the
    duplicate-free prefix fixed, the rows after the first match never
    change any of the three results - while each entry of the email column
    still contributes its own evaluation attempt. -/
theorem first_row_wins_c10 (pre post post2 : List Row) (r : Row) (e : String)
    (fenv : FileEnv) (env : EvalEnv) (uid : Option String) (db : Option DBState)
    (hpre : ∀ x ∈ pre, (rowGet? x "Email address" == some (.cs e)) = false)
    (hr : rowGet? r "Email address" = some (.cs e)) :
    lookupCandidate (pre ++ r :: post) e = some r
  ∧ create_candidate_narrative e (pre ++ r :: post) =
      create_candidate_narrative e (pre ++ r :: post2)
  ∧ process_candidate_files fenv e (pre ++ r :: post) =
      process_candidate_files fenv e (pre ++ r :: post2)
  ∧ create_comprehensive_evaluation env e (pre ++ r :: post) uid db =
      create_comprehensive_evaluation env e (pre ++ r :: post2) uid db
  ∧ (∀ col : List (Option Cell), (emailsOf col).count e = col.count (some (.cs e))) := by
  have hrb : (rowGet? r "Email address" == some (.cs e)) = true := by
    simp [hr]
  have hl1 : lookupCandidate (pre ++ r :: post) e = some r :=
    find?_middle _ r pre post hpre hrb
  have hl2 : lookupCandidate (pre ++ r :: post2) e = some r :=
    find?_middle _ r pre post2 hpre hrb
  have hnarr : create_candidate_narrative e (pre ++ r :: post) =
      create_candidate_narrative e (pre ++ r :: post2) := by
    simp only [create_candidate_narrative, hl1, hl2]
  have hfiles : process_candidate_files fenv e (pre ++ r :: post) =
      process_candidate_files fenv e (pre ++ r :: post2) := by
    simp only [process_candidate_files, hl1, hl2]
  have hfilesE : process_candidate_files env.files e (pre ++ r :: post) =
      process_candidate_files env.files e (pre ++ r :: post2) := by
    simp only [process_candidate_files, hl1, hl2]
  refine ⟨hl1, hnarr, hfiles, ?_, emailsOf_count e⟩
  simp only [create_comprehensive_evaluation, hl1, hl2, hnarr, hfilesE]

theorem first_row_wins_c10_witness :
    (∀ x ∈ [otherRow], (rowGet? x "Email address" == some (.cs "dup@x.com")) = false) ∧
    rowGet? dupRow1 "Email address" = some (.cs "dup@x.com") ∧
    lookupCandidate ([otherRow] ++ dupRow1 :: [dupRow2]) "dup@x.com" = some dupRow1 ∧
    create_comprehensive_evaluation trivialEvalEnv "dup@x.com"
        ([otherRow] ++ dupRow1 :: [dupRow2]) none none =
      create_comprehensive_evaluation trivialEvalEnv "dup@x.com"
        ([otherRow] ++ dupRow1 :: []) none none := by
  have h := first_row_wins_c10 [otherRow] [dupRow2] [] dupRow1 "dup@x.com"
    trivialFileEnv trivialEvalEnv none none (by decide) rfl
  exact ⟨by decide, rfl, h.1, h.2.2.2.1⟩

theorem convertErr_ok (nowStr email : String) (e : PyExn) :
    ∃ d, convert_to_db_format nowStr (errorResultDict email e) = .ok d ∧
      emailKeyOf d = email := ⟨_, rfl, rfl⟩

theorem taskResult_of_error (evalRes : Except PyExn Dict) (email nowStr : String)
    (e : PyExn) (h : evalRes = .error e) :
    taskResult evalRes email nowStr = .ok (errorResultDict email e) := by
  subst h
  obtain ⟨d, hd, _⟩ := convertErr_ok nowStr email e
  simp only [taskResult, tryEvalAndConvert, hd]

theorem pws_result_eq_task (evalRes : Except PyExn Dict) (email sid nid nowStr : String)
    (store : Store) :
    (process_with_semaphore evalRes email sid nid nowStr store).2 =
      taskResult evalRes email nowStr := by
  unfold process_with_semaphore taskResult
  cases htry : tryEvalAndConvert evalRes nowStr with
  | ok p => cases p with | mk r d => rfl
  | error e =>
    cases hconv : convert_to_db_format nowStr (errorResultDict email e) with
    | ok d => rfl
    | error e2 => rfl

theorem runBatch_results (env : String → Except PyExn Dict) (sid nowStr : String) :
    ∀ (emails nids : List String) (store : Store),
      (runBatch env sid nowStr nids emails store).2 =
        emails.map (fun em => taskResult (env em) em nowStr) := by
  intro emails
  induction emails with
  | nil => intro nids store; rfl
  | cons e rest ih =>
    intro nids store
    simp only [runBatch, ih, pws_result_eq_task, List.map_cons]

theorem runBatch_store_indep_length (env : String → Except PyExn Dict) (sid nowStr : String)
    (emails nids : List String) (store : Store) :
    (runBatch env sid nowStr nids emails store).2.length = emails.length := by
  rw [runBatch_results]
  exact List.length_map _ _

theorem runChunks_results (env : String → Except PyExn Dict) (sid nowStr : String) :
    ∀ (chunks nidss : List (List String)) (store : Store) (cs : Counters),
      (runChunks env sid nowStr nidss chunks store cs).2.2 =
        chunks.flatten.map (fun em => taskResult (env em) em nowStr) := by
  intro chunks
  induction chunks with
  | nil => intro nidss store cs; rfl
  | cons batch more ih =>
    intro nidss store cs
    simp only [runChunks, ih, runBatch_results, List.flatten_cons, List.map_append]

theorem chunksGo_flatten {α : Type} (bs : Nat) (hbs : 0 < bs) :
    ∀ (fuel : Nat) (l : List α), l.length ≤ fuel → (chunksGo bs fuel l).flatten = l := by
  intro fuel
  induction fuel with
  | zero =>
    intro l hl
    have : l = [] := List.length_eq_zero.mp (Nat.le_zero.mp hl)
    subst this
    rfl
  | succ n ih =>
    intro l hl
    cases l with
    | nil => rfl
    | cons x xs =>
      have hdrop : ((x :: xs).drop bs).length ≤ n := by
        rw [List.length_drop]
        simp only [List.length_cons] at hl ⊢
        omega
      calc (chunksGo bs (n + 1) (x :: xs)).flatten
          = (x :: xs).take bs ++ (chunksGo bs n ((x :: xs).drop bs)).flatten := rfl
        _ = (x :: xs).take bs ++ (x :: xs).drop bs := by rw [ih _ hdrop]
        _ = x :: xs := List.take_append_drop bs (x :: xs)

theorem chunksOf_flatten {α : Type} (bs : Nat) (hbs : 0 < bs) (l : List α) :
    (chunksOf bs l).flatten = l :=
  chunksGo_flatten bs hbs l.length l (Nat.le_refl _)

theorem tallyOne_processed (c : Counters) (r : Except PyExn Dict) :
    (tallyOne c r).processed = c.processed + 1 := by
  cases r with
  | error e => rfl
  | ok d =>
    simp only [tallyOne]
    split
    · rfl
    · split
      · rfl
      · split
        · rfl
        · rfl

theorem tally_processed (rs : List (Except PyExn Dict)) :
    ∀ c : Counters, (tally c rs).processed = c.processed + rs.length := by
  induction rs with
  | nil => intro c; rfl
  | cons r rest ih =>
    intro c
    have h1 : tally c (r :: rest) = tally (tallyOne c r) rest := rfl
    rw [h1, ih, tallyOne_processed, List.length_cons]
    omega

theorem runChunks_processed (env : String → Except PyExn Dict) (sid nowStr : String) :
    ∀ (chunks nidss : List (List String)) (store : Store) (cs : Counters),
      (runChunks env sid nowStr nidss chunks store cs).2.1.processed =
        cs.processed + chunks.flatten.length := by
  intro chunks
  induction chunks with
  | nil => intro nidss store cs; simp [runChunks]
  | cons batch more ih =>
    intro nidss store cs
    simp only [runChunks, ih, tally_processed, runBatch_store_indep_length,
      List.flatten_cons, List.length_append]
    omega

theorem save_mem (s : Store) (sid nid : String) (d : Dict) :
    ∃ r ∈ (save_candidate_evaluation s sid nid d).1,
      r.email = emailKeyOf d ∧ r.session_id = sid ∧ r.payload = cleanData d := by
  cases hfind : s.find? (fun r => r.email == emailKeyOf d) with
  | some ex =>
    have hmem : ex ∈ s := List.mem_of_find?_eq_some hfind
    have hpe := List.find?_some hfind
    have hpe2 : ex.email = emailKeyOf d := by simpa using hpe
    refine ⟨{ ex with session_id := sid, payload := cleanData d }, ?_, hpe2, rfl, rfl⟩
    simp only [save_candidate_evaluation, hfind]
    have : ({ ex with session_id := sid, payload := cleanData d } : EvalRecord) =
        (fun r => if r.rid == ex.rid then
            { r with session_id := sid, payload := cleanData d } else r) ex := by
      simp
    rw [this]
    exact List.mem_map_of_mem _ hmem
  | none =>
    refine ⟨{ rid := nid, session_id := sid, email := emailKeyOf d, payload := cleanData d },
      ?_, rfl, rfl, rfl⟩
    simp only [save_candidate_evaluation, hfind]
    simp

/-- C8: an exception from an individual candidate task is caught at the
    task boundary: the task returns (not raises) the synthetic dict with
    outcome Error, score 0 and a rationale embedding the failure; persists
    exactly that converted record into the store under the candidate email
    and the current session; the counter loop counts it as an error and as
    processed; and every other task result stays the per-candidate value of
    its own evaluation - the batch result list never loses an entry. -/
theorem error_isolation_c8 (env : String → Except PyExn Dict)
    (email sid nid nowStr : String) (store : Store) (cs : Counters) (e : PyExn)
    (h : env email = .error e) :
    (process_with_semaphore (env email) email sid nid nowStr store).2 =
      .ok (errorResultDict email e)
  ∧ dictGetD (errorResultDict email e) "outcome" .vNone = .vStr "Error"
  ∧ dictGetD (errorResultDict email e) "score" .vNone = .vNum 0
  ∧ dictGetD (errorResultDict email e) "rationale" .vNone =
      .vStr ("Processing failed: " ++ e.toStr)
  ∧ strContains ("Processing failed: " ++ e.toStr) (e.toStr) = true
  ∧ (∃ d, convert_to_db_format nowStr (errorResultDict email e) = .ok d ∧
      ∃ r ∈ (process_with_semaphore (env email) email sid nid nowStr store).1,
        r.email = email ∧ r.session_id = sid ∧ r.payload = cleanData d)
  ∧ tallyOne cs (.ok (errorResultDict email e)) =
      { cs with errors := cs.errors + 1, processed := cs.processed + 1 }
  ∧ (∀ emails nids, (runBatch env sid nowStr nids emails store).2 =
      emails.map (fun em => taskResult (env em) em nowStr)) := by
  obtain ⟨d, hd, hde⟩ := convertErr_ok nowStr email e
  refine ⟨?_, rfl, rfl, rfl, strContains_append_right _ _, ⟨d, hd, ?_⟩, rfl,
    fun emails nids => runBatch_results env sid nowStr emails nids store⟩
  · rw [pws_result_eq_task]
    exact taskResult_of_error _ _ _ _ h
  · have hstore : (process_with_semaphore (env email) email sid nid nowStr store).1 =
        (save_candidate_evaluation store sid nid d).1 := by
      simp only [process_with_semaphore, tryEvalAndConvert, h, hd]
    rw [hstore]
    have hm := save_mem store sid nid d
    rw [hde] at hm
    exact hm

theorem error_isolation_c8_witness :
    boomEnv "b@y.com" = .error (.other "boom") ∧
    (process_with_semaphore (boomEnv "b@y.com") "b@y.com" "sess-1" "id-9" "t0" []).2 =
      .ok (errorResultDict "b@y.com" (.other "boom")) ∧
    tallyOne ⟨0, 0, 0, 0⟩ (.ok (errorResultDict "b@y.com" (.other "boom"))) =
      ⟨1, 0, 0, 1⟩ := by
  have h := error_isolation_c8 boomEnv "b@y.com" "sess-1" "id-9" "t0" [] ⟨0, 0, 0, 0⟩
    (.other "boom") rfl
  exact ⟨rfl, h.1, h.2.2.2.2.2.2.1⟩

/-- C9 (amended): during a batched run every present (non-NA) entry of the
    email column yields exactly one evaluation attempt, in order - the
    result list is precisely the per-entry task results, none dropped - and
    the processed counter equals the number of present entries.  That
    number agrees with the claimed number of non-empty-email entries
    exactly when no present entry is the empty string (which `dropna` does
    not remove). -/
theorem batch_attempts_c9 (env : String → Except PyExn Dict) (sid nowStr : String)
    (bs : Nat) (col : List (Option Cell)) (nidss : List (List String)) (store : Store)
    (hbs : 0 < bs) :
    (process_candidates_in_batches env sid nowStr bs col nidss store).2.2 =
      (emailsOf col).map (fun em => taskResult (env em) em nowStr)
  ∧ (process_candidates_in_batches env sid nowStr bs col nidss store).2.1.processed =
      (emailsOf col).length
  ∧ (∀ e, (emailsOf col).count e = col.count (some (.cs e)))
  ∧ ((∀ s ∈ emailsOf col, ¬s = "") →
      (process_candidates_in_batches env sid nowStr bs col nidss store).2.1.processed =
        specNonEmptyEmailCount col) := by
  have hres : (process_candidates_in_batches env sid nowStr bs col nidss store).2.2 =
      (emailsOf col).map (fun em => taskResult (env em) em nowStr) := by
    unfold process_candidates_in_batches
    rw [runChunks_results, chunksOf_flatten bs hbs]
  have hproc : (process_candidates_in_batches env sid nowStr bs col nidss store).2.1.processed =
      (emailsOf col).length := by
    unfold process_candidates_in_batches
    rw [runChunks_processed, chunksOf_flatten bs hbs]
    simp
  refine ⟨hres, hproc, fun e => emailsOf_count e col, fun hne => ?_⟩
  rw [hproc]
  unfold specNonEmptyEmailCount
  have : (emailsOf col).filter (fun s => !(s == "")) = emailsOf col := by
    rw [List.filter_eq_self]
    intro a ha
    simpa using hne a ha
  rw [this]

theorem batch_attempts_c9_witness :
    (0 : Nat) < 10 ∧
    (process_candidates_in_batches acceptEnv "sess-1" "t0" 10
        [some (.cs "a@x.com"), none, some (.cs "b@y.com")] [["id-a", "id-b"]] []).2.1.processed =
      (emailsOf [some (.cs "a@x.com"), none, some (.cs "b@y.com")]).length := by
  refine ⟨by decide, ?_⟩
  exact (batch_attempts_c9 acceptEnv "sess-1" "t0" 10
    [some (.cs "a@x.com"), none, some (.cs "b@y.com")] [["id-a", "id-b"]] [] (by decide)).2.1

/-- C9 counterexample: a present-but-empty email entry is kept by `dropna`
    and processed, so the processed count (2) exceeds the number of
    non-empty-email entries (1), refuting the claimed equality. -/
theorem batch_attempts_c9_counterexample :
    (process_candidates_in_batches acceptEnv "sess-1" "t0" 10 emptyEmailCol
        [["id-a", "id-b"]] []).2.1.processed = 2 ∧
    specNonEmptyEmailCount emptyEmailCol = 1 := ⟨rfl, rfl⟩

theorem find?_split {s : Store} {e : String} {r : EvalRecord}
    (h : s.find? (fun x => x.email == e) = some r) :
    ∃ s1 s2, s = s1 ++ r :: s2 ∧ (∀ x ∈ s1, (x.email == e) = false) ∧ r.email = e := by
  induction s with
  | nil => simp at h
  | cons a rest ih =>
    rw [List.find?_cons] at h
    cases hae : (a.email == e) with
    | true =>
      simp only [hae] at h
      have ha : a = r := by injection h
      subst ha
      exact ⟨[], rest, rfl, by simp, by simpa using hae⟩
    | false =>
      simp only [hae] at h
      obtain ⟨s1, s2, hs, hpre, hre⟩ := ih h
      subst hs
      refine ⟨a :: s1, s2, rfl, ?_, hre⟩
      intro x hx
      rcases List.mem_cons.mp hx with h1 | h1
      · subst h1; exact hae
      · exact hpre x h1

theorem map_if_rid (g : EvalRecord → EvalRecord) (rid0 : String) :
    ∀ l : Store, rid0 ∉ l.map EvalRecord.rid →
      l.map (fun x => if x.rid == rid0 then g x else x) = l := by
  intro l
  induction l with
  | nil => intro _; rfl
  | cons a rest ih =>
    intro h
    have hne : (a.rid == rid0) = false := by
      apply beq_eq_false_iff_ne.mpr
      intro hEq
      exact h (by simp [hEq])
    have hrest : rid0 ∉ rest.map EvalRecord.rid := fun hm => h (by simp [hm])
    simp only [List.map_cons, hne, Bool.false_eq_true, if_false, ih hrest]

theorem save_update_shape (s1 s2 : Store) (r : EvalRecord) (sid nid : String) (d : Dict)
    (hnd : ((s1 ++ r :: s2).map EvalRecord.rid).Nodup)
    (hfind : (s1 ++ r :: s2).find? (fun x => x.email == emailKeyOf d) = some r) :
    (save_candidate_evaluation (s1 ++ r :: s2) sid nid d).1 =
      s1 ++ { r with session_id := sid, payload := cleanData d } :: s2 := by
  have hrid : r.rid ∉ s1.map EvalRecord.rid ∧ r.rid ∉ s2.map EvalRecord.rid := by
    rw [List.map_append, List.map_cons] at hnd
    have h2 := List.nodup_middle.mp hnd
    rw [List.nodup_cons] at h2
    constructor
    · intro hmem; exact h2.1 (List.mem_append.mpr (Or.inl hmem))
    · intro hmem; exact h2.1 (List.mem_append.mpr (Or.inr hmem))
  simp only [save_candidate_evaluation, hfind]
  rw [List.map_append, List.map_cons]
  rw [map_if_rid _ _ s1 hrid.1, map_if_rid _ _ s2 hrid.2]
  have hfr : (if (r.rid == r.rid) = true then
      { r with session_id := sid, payload := cleanData d } else r) =
      { r with session_id := sid, payload := cleanData d } := by simp
  rw [hfr]

theorem save_insert_shape (s : Store) (sid nid : String) (d : Dict)
    (hfind : s.find? (fun x => x.email == emailKeyOf d) = none) :
    (save_candidate_evaluation s sid nid d).1 =
      s ++ [{ rid := nid, session_id := sid, email := emailKeyOf d,
              payload := cleanData d }] := by
  simp only [save_candidate_evaluation, hfind]

theorem save_good (s : Store) (sid nid : String) (d : Dict)
    (hg : GoodStore s) (hfresh : nid ∉ s.map EvalRecord.rid) :
    GoodStore (save_candidate_evaluation s sid nid d).1 ∧
    ∀ x ∈ (save_candidate_evaluation s sid nid d).1,
      x.rid ∈ s.map EvalRecord.rid ∨ x.rid = nid := by
  cases hfind : s.find? (fun x => x.email == emailKeyOf d) with
  | some r =>
    obtain ⟨s1, s2, hs, hpre, hre⟩ := find?_split hfind
    subst hs
    rw [save_update_shape s1 s2 r sid nid d hg.1 hfind]
    have hmrid : (s1 ++ { r with session_id := sid, payload := cleanData d } :: s2).map
        EvalRecord.rid = (s1 ++ r :: s2).map EvalRecord.rid := by simp
    have hmem : (s1 ++ { r with session_id := sid, payload := cleanData d } :: s2).map
        EvalRecord.email = (s1 ++ r :: s2).map EvalRecord.email := by simp
    refine ⟨⟨by rw [hmrid]; exact hg.1, by rw [hmem]; exact hg.2⟩, ?_⟩
    intro x hx
    left
    rcases List.mem_append.mp hx with h1 | h1
    · exact List.mem_map_of_mem _ (List.mem_append.mpr (Or.inl h1))
    · rcases List.mem_cons.mp h1 with h2 | h2
      · subst h2
        have hridx : ({ r with session_id := sid, payload := cleanData d} :
            EvalRecord).rid = r.rid := rfl
        rw [hridx]
        exact List.mem_map_of_mem EvalRecord.rid (by simp)
      · exact List.mem_map_of_mem _ (List.mem_append.mpr (Or.inr (List.mem_cons_of_mem _ h2)))
  | none =>
    rw [save_insert_shape s sid nid d hfind]
    have hnex : ∀ x ∈ s, x.email ≠ emailKeyOf d := by
      intro x hx hEq
      have := List.find?_eq_none.mp hfind x hx
      simp [hEq] at this
    refine ⟨⟨?_, ?_⟩, ?_⟩
    · rw [List.map_append]
      rw [List.nodup_append]
      refine ⟨hg.1, by simp, ?_⟩
      intro a ha hb
      simp only [List.map_cons, List.map_nil, List.mem_cons, List.not_mem_nil,
        or_false] at hb
      subst hb
      exact hfresh ha
    · rw [List.map_append]
      rw [List.nodup_append]
      refine ⟨hg.2, by simp, ?_⟩
      intro a ha hb
      simp only [List.map_cons, List.map_nil, List.mem_cons, List.not_mem_nil,
        or_false] at hb
      subst hb
      obtain ⟨x, hx, hxe⟩ := List.mem_map.mp ha
      exact hnex x hx hxe
    · intro x hx
      rcases List.mem_append.mp hx with h1 | h1
      · exact Or.inl (List.mem_map_of_mem _ h1)
      · simp only [List.mem_cons, List.not_mem_nil, or_false] at h1
        subst h1
        exact Or.inr rfl

theorem save_recordsFor_same (s : Store) (sid nid : String) (d : Dict) (hg : GoodStore s) :
    ∃ rid, recordsFor (save_candidate_evaluation s sid nid d).1 (emailKeyOf d) =
      [{ rid := rid, session_id := sid, email := emailKeyOf d,
         payload := cleanData d }] := by
  cases hfind : s.find? (fun x => x.email == emailKeyOf d) with
  | some r =>
    obtain ⟨s1, s2, hs, hpre, hre⟩ := find?_split hfind
    subst hs
    rw [save_update_shape s1 s2 r sid nid d hg.1 hfind]
    refine ⟨r.rid, ?_⟩
    have hemail := hg.2
    rw [List.map_append, List.map_cons] at hemail
    have h2 := List.nodup_middle.mp hemail
    rw [List.nodup_cons] at h2
    have hnot2 : ∀ x ∈ s2, (x.email == emailKeyOf d) = false := by
      intro x hx
      apply beq_eq_false_iff_ne.mpr
      intro hEq
      apply h2.1
      apply List.mem_append.mpr
      right
      rw [hre, ← hEq]
      exact List.mem_map_of_mem _ hx
    unfold recordsFor
    rw [List.filter_append, List.filter_cons]
    have hf1 : s1.filter (fun x => x.email == emailKeyOf d) = [] := by
      rw [List.filter_eq_nil_iff]
      intro a ha
      simp [hpre a ha]
    have hf2 : s2.filter (fun x => x.email == emailKeyOf d) = [] := by
      rw [List.filter_eq_nil_iff]
      intro a ha
      simp [hnot2 a ha]
    have hcond : (({ r with session_id := sid, payload := cleanData d } :
        EvalRecord).email == emailKeyOf d) = true := by
      simp [hre]
    rw [hf1, hf2, hcond]
    simp [hre]
  | none =>
    rw [save_insert_shape s sid nid d hfind]
    refine ⟨nid, ?_⟩
    unfold recordsFor
    rw [List.filter_append]
    have hf1 : s.filter (fun x => x.email == emailKeyOf d) = [] := by
      rw [List.filter_eq_nil_iff]
      intro a ha
      exact List.find?_eq_none.mp hfind a ha
    rw [hf1]
    simp

theorem save_recordsFor_other (s : Store) (sid nid : String) (d : Dict) (e : String)
    (hne : ¬ e = emailKeyOf d) (hg : GoodStore s) :
    recordsFor (save_candidate_evaluation s sid nid d).1 e = recordsFor s e := by
  cases hfind : s.find? (fun x => x.email == emailKeyOf d) with
  | some r =>
    obtain ⟨s1, s2, hs, hpre, hre⟩ := find?_split hfind
    subst hs
    rw [save_update_shape s1 s2 r sid nid d hg.1 hfind]
    unfold recordsFor
    rw [List.filter_append, List.filter_cons, List.filter_append, List.filter_cons]
    have hbe : (emailKeyOf d == e) = false := by
      apply beq_eq_false_iff_ne.mpr
      intro hEq
      exact hne hEq.symm
    simp [hre, hbe]
  | none =>
    rw [save_insert_shape s sid nid d hfind]
    unfold recordsFor
    rw [List.filter_append]
    have hbe : (emailKeyOf d == e) = false := by
      apply beq_eq_false_iff_ne.mpr
      intro hEq
      exact hne hEq.symm
    simp [hbe]

theorem runSaves_track (e : String) :
    ∀ (ops : List SaveOp) (s : Store), GoodStore s →
      (∀ op ∈ ops, op.nid ∉ s.map EvalRecord.rid) →
      (ops.map SaveOp.nid).Nodup →
      GoodStore (runSaves s ops) ∧
      (match lastSaveFor e ops with
       | none => recordsFor (runSaves s ops) e = recordsFor s e
       | some op => ∃ rid, recordsFor (runSaves s ops) e =
           [{ rid := rid, session_id := op.sid, email := e,
              payload := cleanData op.data }]) := by
  intro ops
  induction ops with
  | nil =>
    intro s hg _ _
    exact ⟨hg, rfl⟩
  | cons op rest ih =>
    intro s hg hfresh hnodup
    have hfresh0 : op.nid ∉ s.map EvalRecord.rid := hfresh op (by simp)
    have hsave := save_good s op.sid op.nid op.data hg hfresh0
    have hnodup2 := hnodup
    rw [List.map_cons, List.nodup_cons] at hnodup2
    have hfresh1 : ∀ op2 ∈ rest,
        op2.nid ∉ (save_candidate_evaluation s op.sid op.nid op.data).1.map
          EvalRecord.rid := by
      intro op2 h2 hmem
      obtain ⟨x, hx, hxe⟩ := List.mem_map.mp hmem
      rcases hsave.2 x hx with hold | hnew
      · exact hfresh op2 (by simp [h2]) (hxe ▸ hold)
      · apply hnodup2.1
        have : op2.nid = op.nid := by rw [← hxe, hnew]
        rw [← this]
        exact List.mem_map_of_mem _ h2
    have IH := ih (save_candidate_evaluation s op.sid op.nid op.data).1
      hsave.1 hfresh1 hnodup2.2
    have hruns : runSaves s (op :: rest) =
        runSaves (save_candidate_evaluation s op.sid op.nid op.data).1 rest := rfl
    refine ⟨by rw [hruns]; exact IH.1, ?_⟩
    rw [hruns]
    cases hlast : lastSaveFor e rest with
    | some op2 =>
      have hl : lastSaveFor e (op :: rest) = some op2 := by
        simp [lastSaveFor, hlast]
      have IH2 := IH.2
      simp only [hlast] at IH2
      simp only [hl]
      exact IH2
    | none =>
      have IH2 := IH.2
      simp only [hlast] at IH2
      cases hop : (emailKeyOf op.data == e) with
      | true =>
        have hl : lastSaveFor e (op :: rest) = some op := by
          simp [lastSaveFor, hlast, hop]
        simp only [hl]
        have he : emailKeyOf op.data = e := by simpa using hop
        subst he
        obtain ⟨rid, hrec⟩ := save_recordsFor_same s op.sid op.nid op.data hg
        exact ⟨rid, by rw [IH2, hrec]⟩
      | false =>
        have hl : lastSaveFor e (op :: rest) = none := by
          simp [lastSaveFor, hlast, hop]
        simp only [hl]
        rw [IH2]
        refine save_recordsFor_other s op.sid op.nid op.data e ?_ hg
        intro hEq
        rw [hEq] at hop
        simp at hop

/-- C1: persisting an evaluation is an upsert keyed by the candidate
    email: when a row with that email exists (whatever its session), that
    row is updated in place - same position, same id, new data, session id
    reassigned - and the store does not grow; otherwise a fresh row is
    appended.  Consequently a store built from empty by any sequence of
    saves with fresh uuids holds exactly one row per distinct email,
    carrying the data and session id of the most recent save for that
    email. -/
theorem upsert_by_email_c1 :
    (∀ (store : Store) (sid nid : String) (d : Dict) (r : EvalRecord),
        (store.map EvalRecord.rid).Nodup →
        store.find? (fun x => x.email == emailKeyOf d) = some r →
        ∃ s1 s2, store = s1 ++ r :: s2 ∧
          (save_candidate_evaluation store sid nid d).1 =
            s1 ++ { r with session_id := sid, payload := cleanData d } :: s2 ∧
          (save_candidate_evaluation store sid nid d).1.length = store.length)
  ∧ (∀ (store : Store) (sid nid : String) (d : Dict),
        store.find? (fun x => x.email == emailKeyOf d) = none →
        (save_candidate_evaluation store sid nid d).1 =
          store ++ [{ rid := nid, session_id := sid, email := emailKeyOf d,
                      payload := cleanData d }])
  ∧ (∀ (ops : List SaveOp) (e : String),
        (ops.map SaveOp.nid).Nodup →
        match lastSaveFor e ops with
        | none => recordsFor (runSaves [] ops) e = []
        | some op => ∃ rid, recordsFor (runSaves [] ops) e =
            [{ rid := rid, session_id := op.sid, email := e,
               payload := cleanData op.data }]) := by
  refine ⟨?_, ?_, ?_⟩
  · intro store sid nid d r hnd hfind
    obtain ⟨s1, s2, hs, hpre, hre⟩ := find?_split hfind
    subst hs
    refine ⟨s1, s2, rfl, save_update_shape s1 s2 r sid nid d hnd hfind, ?_⟩
    rw [save_update_shape s1 s2 r sid nid d hnd hfind]
    simp
  · intro store sid nid d hfind
    exact save_insert_shape store sid nid d hfind
  · intro ops e hnodup
    have hg0 : GoodStore ([] : Store) := ⟨List.nodup_nil, List.nodup_nil⟩
    have h := runSaves_track e ops [] hg0 (by simp) hnodup
    have h2 := h.2
    cases hlast : lastSaveFor e ops with
    | none =>
      simp only [hlast] at h2 ⊢
      exact h2
    | some op =>
      simp only [hlast] at h2 ⊢
      exact h2

theorem upsert_by_email_c1_witness :
    (reRunOps.map SaveOp.nid).Nodup ∧
    ∃ rid, recordsFor (runSaves [] reRunOps) "a@x.com" =
      [{ rid := rid, session_id := "sess-2", email := "a@x.com",
         payload := cleanData c1OpA2.data }] := by
  refine ⟨by decide, ?_⟩
  exact upsert_by_email_c1.2.2 reRunOps "a@x.com" (by decide)
